import Mathlib

/-!
Verification development for `mobx-react-viewmodel`.

The repository couples a mobx view-model object to a React component's
lifecycle through the hooks `useViewModel` / `useViewModelFactory`.  The
sources available here are the storybook file
`src/stories/useViewModelFactory.stories.tsx` (concrete view-model classes,
a users store, and the typings `IViewModel` / `IViewModelClass`).  The hook
implementation itself is not among the sources, so its lifecycle behaviour
is modelled from the specification; the concrete classes of the stories are
embedded directly from the source.
-/

namespace MobxReactViewModel

/-! ## Lifecycle model of the hook -/

/-- Modelled from the spec: the missing hook implementation
(`useViewModelFactory` in `src/useViewModel`, not under the sources) keeps a
single view-model object per component instance.  A view-model is embedded as
a record with an identity tag (standing for the object reference produced by
`new`), the externally-visible property bag `props`, the injected
non-reactive dependencies `deps`, and whether the instance defines the
optional `dispose` teardown callback. -/
structure VM (P : Type) (A : Type) where
  id : Nat
  props : P
  deps : A
  hasDispose : Bool
deriving Repr, DecidableEq

/-- Pushing a fresh props bag into an existing view-model instance: only the
`props` field changes. -/
def setProps {P A : Type} (v : VM P A) (p : P) : VM P A :=
  { v with props := p }

/-- Component-lifecycle events seen by the hook: a render carrying the props
bag of that render, or the unmount of the component instance. -/
inductive Event (P : Type) where
  | render (p : P)
  | unmount
deriving Repr, DecidableEq

/-- Observable view-model lifecycle happenings, recorded in order: creation
(with the construction props), a props update, or the teardown call. -/
inductive LifeEvent (P : Type) where
  | created (p : P)
  | updated (p : P)
  | disposed
deriving Repr, DecidableEq

/-- Modelled from the spec: the hook's per-component-instance bookkeeping —
the single cached view-model reference (`none` before mount and after
unmount), how often the factory ran, how often the teardown callback was
invoked, and the ordered log of lifecycle happenings. -/
structure HookState (P A : Type) where
  vm : Option (VM P A)
  factoryCalls : Nat
  disposeCalls : Nat
  log : List (LifeEvent P)
deriving Repr, DecidableEq

/-- State of the hook before the first render of the component instance. -/
def initState {P A : Type} : HookState P A :=
  { vm := none, factoryCalls := 0, disposeCalls := 0, log := [] }

/-- Modelled from the spec: one lifecycle step of the hook.  On the first
render it invokes the factory and caches the result; on every later render it
pushes the new props bag into the cached instance; on unmount it invokes the
optional teardown callback (when the instance defines one) and drops the
cached reference, which is scoped to the component instance. -/
def hookStep {P A : Type} (factory : P → VM P A) (s : HookState P A) :
    Event P → HookState P A
  | .render p =>
    match s.vm with
    | none =>
      { s with
        vm := some (factory p)
        factoryCalls := s.factoryCalls + 1
        log := s.log ++ [.created p] }
    | some v =>
      { s with vm := some (setProps v p), log := s.log ++ [.updated p] }
  | .unmount =>
    match s.vm with
    | none => { s with vm := none }
    | some v =>
      { s with
        vm := none
        disposeCalls := s.disposeCalls + (if v.hasDispose then 1 else 0)
        log := s.log ++ (if v.hasDispose then [.disposed] else []) }

/-- Running the hook over a whole sequence of lifecycle events. -/
def run {P A : Type} (factory : P → VM P A) (s : HookState P A)
    (es : List (Event P)) : HookState P A :=
  es.foldl (hookStep factory) s

/-- Modelled from the spec: the hook step with a fallible factory.  A thrown
construction exception is embedded as `Except.error`; the hook installs no
handler, so the error of the factory is returned unchanged and no state (in
particular no cached view-model) is produced. -/
def hookStepE {P A E : Type} (factory : P → Except E (VM P A))
    (s : HookState P A) : Event P → Except E (HookState P A)
  | .render p =>
    match s.vm with
    | none =>
      match factory p with
      | .error e => .error e
      | .ok v =>
        .ok { s with
              vm := some v
              factoryCalls := s.factoryCalls + 1
              log := s.log ++ [.created p] }
    | some v =>
      .ok { s with vm := some (setProps v p), log := s.log ++ [.updated p] }
  | .unmount =>
    match s.vm with
    | none => .ok { s with vm := none }
    | some v =>
      .ok { s with
            vm := none
            disposeCalls := s.disposeCalls + (if v.hasDispose then 1 else 0)
            log := s.log ++ (if v.hasDispose then [.disposed] else []) }

/-! ## Basic lemmas about the lifecycle model -/

/-- Pushing a list of props bags into an instance, one render at a time. -/
def pushAll {P A : Type} (v : VM P A) (ps : List P) : VM P A :=
  ps.foldl setProps v

theorem pushAll_id {P A : Type} (v : VM P A) (ps : List P) :
    (pushAll v ps).id = v.id := by
  induction ps generalizing v with
  | nil => rfl
  | cons p ps ih => simpa [pushAll, setProps] using ih (setProps v p)

theorem pushAll_deps {P A : Type} (v : VM P A) (ps : List P) :
    (pushAll v ps).deps = v.deps := by
  induction ps generalizing v with
  | nil => rfl
  | cons p ps ih => simpa [pushAll, setProps] using ih (setProps v p)

theorem pushAll_hasDispose {P A : Type} (v : VM P A) (ps : List P) :
    (pushAll v ps).hasDispose = v.hasDispose := by
  induction ps generalizing v with
  | nil => rfl
  | cons p ps ih => simpa [pushAll, setProps] using ih (setProps v p)

theorem pushAll_props {P A : Type} (v : VM P A) (ps : List P) :
    (pushAll v ps).props = ps.getLastD v.props := by
  induction ps generalizing v with
  | nil => rfl
  | cons p ps ih =>
    have h := ih (setProps v p)
    rw [List.getLastD_cons]
    simpa [pushAll, setProps] using h

/-- Re-renders of a mounted instance only push props and extend the log. -/
theorem run_renders {P A : Type} (factory : P → VM P A) (ps : List P)
    (s : HookState P A) (v : VM P A) (hv : s.vm = some v) :
    run factory s (ps.map Event.render) =
      { s with vm := some (pushAll v ps),
               log := s.log ++ ps.map LifeEvent.updated } := by
  induction ps generalizing s v with
  | nil => simp [run, pushAll, hv.symm]
  | cons p ps ih =>
    have hstep : hookStep factory s (Event.render p) =
        { s with vm := some (setProps v p), log := s.log ++ [.updated p] } := by
      simp [hookStep, hv]
    calc run factory s (Event.render p :: ps.map Event.render)
        = run factory (hookStep factory s (Event.render p))
            (ps.map Event.render) := rfl
      _ = _ := by
          rw [hstep, ih _ (setProps v p) rfl]
          simp [pushAll]

/-- Mounting and then re-rendering: the factory runs once at the first
render, and every later render only updates the cached instance. -/
theorem run_mount_renders {P A : Type} (factory : P → VM P A) (p₀ : P)
    (ps : List P) :
    run factory initState ((p₀ :: ps).map Event.render) =
      { vm := some (pushAll (factory p₀) ps)
        factoryCalls := 1
        disposeCalls := 0
        log := LifeEvent.created p₀ :: ps.map LifeEvent.updated } := by
  have hstep : hookStep factory initState (Event.render p₀) =
      { vm := some (factory p₀), factoryCalls := 1, disposeCalls := 0,
        log := [LifeEvent.created p₀] } := by
    simp [hookStep, initState]
  calc run factory initState (Event.render p₀ :: ps.map Event.render)
      = run factory (hookStep factory initState (Event.render p₀))
          (ps.map Event.render) := rfl
    _ = _ := by rw [hstep, run_renders factory ps _ (factory p₀) rfl]; rfl

theorem run_append {P A : Type} (factory : P → VM P A) (s : HookState P A)
    (l₁ l₂ : List (Event P)) :
    run factory s (l₁ ++ l₂) = run factory (run factory s l₁) l₂ := by
  unfold run
  exact List.foldl_append _ _ _ _

/-! ## Embedding of the storybook source
(`src/stories/useViewModelFactory.stories.tsx`) -/

/-- A user record, from the `User` type of the stories file. -/
structure User where
  id : String
  name : String
deriving Repr, DecidableEq

/-- `UsersStore`: its private `users` dictionary, embedded as an association
list of its own properties, from id to `User`. -/
structure UsersStore where
  users : List (String × User)
deriving Repr, DecidableEq

/-- The member names every plain object literal inherits from
`Object.prototype`, in JavaScript: bracket indexing at one of these names on
an object without an own property of that name yields the inherited member,
not `undefined`. -/
def objectPrototypeMemberNames : List String :=
  ["constructor", "hasOwnProperty", "isPrototypeOf", "propertyIsEnumerable",
   "toLocaleString", "toString", "valueOf", "__proto__",
   "__defineGetter__", "__defineSetter__", "__lookupGetter__",
   "__lookupSetter__"]

/-- A value produced by bracket indexing on the `users` object literal: a
stored `User` record (an own property), a member inherited from
`Object.prototype` (such as the `toString` function), or `undefined`. -/
inductive JsValue where
  | user (u : User)
  | inherited (name : String)
  | undefinedValue
deriving Repr, DecidableEq

/-- JavaScript bracket indexing `own[id]` on an object literal: an own
property shadows the prototype; an absent id falls through to the
`Object.prototype` members before yielding `undefined`. -/
def jsIndex (own : List (String × User)) (id : String) : JsValue :=
  match own.lookup id with
  | some u => .user u
  | none =>
    if id ∈ objectPrototypeMemberNames then .inherited id else .undefinedValue

/-- `UsersStore.getUser(id)` returns `this.users[id]`: bracket indexing on
the object literal, prototype chain included. -/
def UsersStore.getUser (s : UsersStore) (id : String) : JsValue :=
  jsIndex s.users id

/-- The module-level `userStore` instance, holding the single seeded user. -/
def userStore : UsersStore :=
  ⟨[("user-1-id", ⟨"user-1-id", "user-1-name"⟩)]⟩

/-- The props bag of `AdvancedDIViewModel`. -/
structure AdvancedDIViewModelProps where
  userId : String
deriving Repr, DecidableEq

/-- The `AdvancedDIViewModel` constructor: stores the props bag and the
injected `usersStore`; it defines no `dispose`. -/
def advancedDIViewModel (props : AdvancedDIViewModelProps)
    (usersStore : UsersStore) : VM AdvancedDIViewModelProps UsersStore :=
  { id := 0, props := props, deps := usersStore, hasDispose := false }

/-- The `user` computed of `AdvancedDIViewModel`:
`this.usersStore.getUser(this.props.userId)`. -/
def advUser (v : VM AdvancedDIViewModelProps UsersStore) : JsValue :=
  v.deps.getUser v.props.userId

/-- The factory passed in `AdvancedDIExample`:
`props => new AdvancedDIViewModel(props, userStore)`, generalised over the
closed-over store. -/
def advFactory (store : UsersStore) :
    AdvancedDIViewModelProps → VM AdvancedDIViewModelProps UsersStore :=
  fun p => advancedDIViewModel p store

/-- The props bag of the optional-props story (`OptionalPropsExample`):
`userId?: string`, `title: string | undefined`, `subTitle?: string`.  A
missing or explicitly-undefined field is `none`. -/
structure OptionalPropsExample where
  userId : Option String
  title : Option String
  subTitle : Option String
deriving Repr, DecidableEq

/-- JavaScript `x || d` for a possibly-undefined string `x`: the default is
taken when `x` is `undefined` or the empty string (both falsy). -/
def jsOrString (x : Option String) (d : String) : String :=
  match x with
  | none => d
  | some s => if s = "" then d else s

/-- `OptionalPropsViewModel.displayText`:
`const user = this.props.userId || 'Guest'; const title = this.props.title ||
'Untitled'; return` the interpolation of `title`, `" by "`, `user`. -/
def displayText (p : OptionalPropsExample) : String :=
  let user := jsOrString p.userId "Guest"
  let title := jsOrString p.title "Untitled"
  title ++ " by " ++ user

/-! ## Embedding of the `IViewModelClass` conditional type

The stories document carries two versions of the typings.  Both read
`P extends ... ? (Args extends CONDITION ? CtorWithPropsAndArgs :
CtorWithPropsAndArgs) : CtorNoArgs`; the versions differ only in the tested
CONDITION (`Args extends []` versus `Args extends unknown[]`).  The
conditional type is embedded as a function of the truth values of its two
tests, returning the shape of constructor type it denotes. -/

/-- The two constructor-type shapes occurring in `IViewModelClass`. -/
inductive CtorShape where
  | withPropsAndArgs
  | noArgs
deriving Repr, DecidableEq

/-- First version of `IViewModelClass`: the inner test is `Args extends []`;
both inner branches are the constructor type taking props and args. -/
def iViewModelClassV1 (pExtendsObj argsExtendsEmptyTuple : Bool) : CtorShape :=
  if pExtendsObj then
    if argsExtendsEmptyTuple then CtorShape.withPropsAndArgs
    else CtorShape.withPropsAndArgs
  else CtorShape.noArgs

/-- Second version of `IViewModelClass`: the inner test is
`Args extends unknown[]`; both inner branches are again the constructor type
taking props and args. -/
def iViewModelClassV2 (pExtendsObj argsExtendsUnknownArr : Bool) : CtorShape :=
  if pExtendsObj then
    if argsExtendsUnknownArr then CtorShape.withPropsAndArgs
    else CtorShape.withPropsAndArgs
  else CtorShape.noArgs

/-! ## Allocation model for object identity -/

/-- Modelled from the spec: `new` yields a fresh object reference, embedded
as an identity tag drawn from an allocation counter that the construction
advances. -/
def freshVM {P A : Type} (n : Nat) (p : P) (a : A) (hd : Bool) :
    VM P A × Nat :=
  (⟨n, p, a, hd⟩, n + 1)

/-- Modelled from the spec: mounting one component instance — the hook's
first render — with a factory that allocates a fresh object reference.
Returns the hook state of that instance and the advanced allocation
counter. -/
def mountInstance {P A : Type} (n : Nat) (p : P) (a : A) (hd : Bool) :
    HookState P A × Nat :=
  (hookStep (fun q => (freshVM n q a hd).1) initState (Event.render p), n + 1)

/-! ## Claim theorems -/

/-- Claim C1: across all renders of one component instance the view-model is
constructed exactly once — the first render invokes the factory, every later
render leaves the same cached instance (same identity, same injected
dependencies) in place without invoking the factory again, and the hook holds
at most the one cached reference. -/
theorem viewModel_constructed_once {P A : Type} (factory : P → VM P A)
    (p₀ : P) (ps : List P) :
    (run factory initState ((p₀ :: ps).map Event.render)).factoryCalls = 1
    ∧ ∃ v, (run factory initState ((p₀ :: ps).map Event.render)).vm = some v
        ∧ v.id = (factory p₀).id ∧ v.deps = (factory p₀).deps := by
  rw [run_mount_renders]
  exact ⟨rfl, pushAll (factory p₀) ps, rfl, pushAll_id _ _, pushAll_deps _ _⟩

/-- Claim C2: after every render step — the mounting one included, for a
factory that stores the given props bag, as the story view-models do — the
cached view-model's `props` field equals the props bag passed to the hook in
that render. -/
theorem props_updated_every_render {P A : Type} (factory : P → VM P A)
    (hf : ∀ p, (factory p).props = p) (s : HookState P A) (p : P) :
    ∃ v, (hookStep factory s (Event.render p)).vm = some v ∧ v.props = p := by
  cases hs : s.vm with
  | none => exact ⟨factory p, by simp [hookStep, hs], hf p⟩
  | some v => exact ⟨setProps v p, by simp [hookStep, hs], rfl⟩

/-- Witness for C2 at the `AdvancedDIExample` factory and its props bag. -/
theorem props_updated_every_render_witness :
    (∀ p : AdvancedDIViewModelProps, (advFactory userStore p).props = p)
    ∧ ∃ v, (hookStep (advFactory userStore) initState
          (Event.render ⟨"user-1-id"⟩)).vm = some v
        ∧ v.props = (⟨"user-1-id"⟩ : AdvancedDIViewModelProps) :=
  ⟨fun _ => rfl,
   props_updated_every_render (advFactory userStore) (fun _ => rfl)
     initState ⟨"user-1-id"⟩⟩

/-- Claim C3: over a full lifecycle the teardown callback runs exactly once,
at unmount, when the instance defines `dispose` — never during the renders
that precede unmount — and not at all when `dispose` is absent. -/
theorem dispose_once_at_unmount {P A : Type} (factory : P → VM P A)
    (p₀ : P) (ps : List P) :
    (run factory initState ((p₀ :: ps).map Event.render)).disposeCalls = 0
    ∧ (run factory initState
          ((p₀ :: ps).map Event.render ++ [Event.unmount])).disposeCalls
        = (if (factory p₀).hasDispose then 1 else 0) := by
  constructor
  · rw [run_mount_renders]
  · rw [run_append, run_mount_renders]
    simp [run, hookStep, pushAll_hasDispose]

/-- Claim C4: the lifecycle log of a full component lifetime is exactly one
creation (at mount, with the mount props), then one props update per
component update in order, then — last — the disposal when the instance
defines `dispose`; nothing follows the disposal. -/
theorem lifecycle_event_order {P A : Type} (factory : P → VM P A)
    (p₀ : P) (ps : List P) :
    (run factory initState
        ((p₀ :: ps).map Event.render ++ [Event.unmount])).log
      = LifeEvent.created p₀ :: ps.map LifeEvent.updated
          ++ (if (factory p₀).hasDispose then [LifeEvent.disposed] else []) := by
  rw [run_append, run_mount_renders]
  simp [run, hookStep, pushAll_hasDispose]

/-- Claim C5: a factory closing over a dependency hands exactly that
dependency to the constructed view-model — the cached instance of the
`AdvancedDIExample` run holds the closed-over store across all renders — and
the concrete `AdvancedDIViewModel` built over `userStore` at
`userId = "user-1-id"` resolves its `user` computed through that store to the
seeded user. -/
theorem factory_injects_dependencies (store : UsersStore)
    (p₀ : AdvancedDIViewModelProps) (ps : List AdvancedDIViewModelProps) :
    (∃ v, (run (advFactory store) initState
          ((p₀ :: ps).map Event.render)).vm = some v ∧ v.deps = store)
    ∧ advUser (advFactory userStore ⟨"user-1-id"⟩)
        = JsValue.user ⟨"user-1-id", "user-1-name"⟩ := by
  constructor
  · rw [run_mount_renders]
    exact ⟨_, rfl, pushAll_deps _ _⟩
  · rfl

/-- Claim C6: an exception thrown during construction propagates out of the
hook unchanged — the step returns exactly the factory's error — and no
view-model is cached, since no hook state is produced at all. -/
theorem construction_error_propagates {P A E : Type}
    (factory : P → Except E (VM P A)) (s : HookState P A) (p : P) (err : E)
    (h1 : s.vm = none) (h2 : factory p = Except.error err) :
    hookStepE factory s (Event.render p) = Except.error err
    ∧ ∀ s' : HookState P A,
        hookStepE factory s (Event.render p) ≠ Except.ok s' := by
  have hmain : hookStepE factory s (Event.render p) = Except.error err := by
    simp [hookStepE, h1, h2]
  exact ⟨hmain, fun s' hok => by rw [hmain] at hok; cases hok⟩

/-- A factory whose construction throws, for the C6 witness. -/
def failingFactory : AdvancedDIViewModelProps →
    Except String (VM AdvancedDIViewModelProps UsersStore) :=
  fun _ => Except.error "construction failed"

/-- Witness for C6 at a concrete throwing factory on the fresh hook state. -/
theorem construction_error_propagates_witness :
    (@initState AdvancedDIViewModelProps UsersStore).vm = none
    ∧ failingFactory ⟨"user-1-id"⟩ = Except.error "construction failed"
    ∧ (hookStepE failingFactory initState (Event.render ⟨"user-1-id"⟩)
          = Except.error "construction failed"
        ∧ ∀ s', hookStepE failingFactory initState
            (Event.render ⟨"user-1-id"⟩) ≠ Except.ok s') :=
  ⟨rfl, rfl,
   construction_error_propagates failingFactory initState ⟨"user-1-id"⟩
     "construction failed" rfl rfl⟩

/-- Claim C7: two component instances mounted one after the other hold
view-models with distinct object identities, and on unmount the hook drops
its cached reference, so no view-model reference outlives its owning
component instance. -/
theorem instances_hold_distinct_viewModels {P A : Type} (n : Nat)
    (p₁ p₂ : P) (a : A) (hd₁ hd₂ : Bool) :
    (∃ v₁ v₂,
        (mountInstance n p₁ a hd₁).1.vm = some v₁
        ∧ (mountInstance (mountInstance n p₁ a hd₁).2 p₂ a hd₂).1.vm = some v₂
        ∧ v₁.id ≠ v₂.id)
    ∧ ∀ (factory : P → VM P A) (s : HookState P A),
        (hookStep factory s Event.unmount).vm = none := by
  constructor
  · refine ⟨⟨n, p₁, a, hd₁⟩, ⟨n + 1, p₂, a, hd₂⟩, ?_, ?_, by show n ≠ n + 1; omega⟩
    · simp [mountInstance, hookStep, initState, freshVM]
    · simp [mountInstance, hookStep, initState, freshVM]
  · intro factory s
    cases hs : s.vm <;> simp [hookStep, hs]

/-- Counterexample to claim C8 as stated: `"toString"` is not present in the
seeded store's `users` dictionary, yet `getUser "toString"` returns the
member inherited from `Object.prototype`, not `undefined`. -/
theorem getUser_prototype_counterexample :
    userStore.users.lookup "toString" = none
    ∧ userStore.getUser "toString" ≠ JsValue.undefinedValue := by
  constructor
  · decide
  · decide

/-- Claim C8, amended: `UsersStore.getUser` on the seeded `userStore` returns
the stored record for `"user-1-id"`, the inherited member (not `undefined`)
for an absent id that names an `Object.prototype` member such as
`"toString"`, and `undefined` for every other id; it is a total function of
the store and does not change it. -/
theorem getUser_total_lookup (id : String) :
    userStore.getUser id =
      if id = "user-1-id" then JsValue.user ⟨"user-1-id", "user-1-name"⟩
      else if id ∈ objectPrototypeMemberNames then JsValue.inherited id
      else JsValue.undefinedValue := by
  by_cases h : id = "user-1-id"
  · simp [UsersStore.getUser, jsIndex, userStore, List.lookup, h]
  · have hb : (id == "user-1-id") = false := beq_eq_false_iff_ne.mpr h
    simp [UsersStore.getUser, jsIndex, userStore, List.lookup, h, hb]

/-- Claim C9: `displayText` is the interpolation of the effective title,
`" by "` and the effective user, where the user falls back to `"Guest"` on an
undefined or empty `userId`, the title falls back to `"Untitled"` on an
undefined or empty `title`, and `subTitle` never affects the result. -/
theorem displayText_formula (p : OptionalPropsExample) (s : Option String) :
    displayText p =
      (match p.title with
       | some t => if t = "" then "Untitled" else t
       | none => "Untitled") ++ " by " ++
      (match p.userId with
       | some u => if u = "" then "Guest" else u
       | none => "Guest")
    ∧ displayText { p with subTitle := s } = displayText p := by
  constructor
  · rcases p with ⟨u, t, st⟩
    cases t <;> cases u <;> simp [displayText, jsOrString]
  · rfl

/-- Claim C10: the two versions of the `IViewModelClass` conditional type are
equivalent — since both inner branches are the identical constructor type,
the inner test (`Args extends []` in one version, `Args extends unknown[]` in
the other) has no effect, and the two definitions denote the same type for
every outcome of the tests. -/
theorem iViewModelClass_versions_equal :
    ∀ p b₁ b₂, iViewModelClassV1 p b₁ = iViewModelClassV2 p b₂ := by
  decide

end MobxReactViewModel
